import Mathlib

/-!
Verification of the velocity-computation core of the
pedestrian-trajectory-analyzer repository.

The Python source is shallowly embedded: pandas DataFrames become lists of
row structures, column assignments become explicit field computations, and
NumPy float division (which never raises, and yields `inf`/`-inf`/`nan` on a
zero denominator) is modelled by the `PyF` type together with `pyDiv`.
Coordinates, speeds and areas are modelled by exact rationals; frames and
pedestrian ids are integers, as in the source.

The float square root used by `np.linalg.norm` is modelled by `ratSqrt`,
which is exact whenever its argument is the square of a rational (every
theorem that inspects a concrete scalar speed uses such inputs) and is
sign-faithful everywhere: `ratSqrt q` is positive exactly when `q` is
positive, which is all the non-concrete theorems below rely on.
-/

/-- Result of a NumPy floating-point division: a finite value, a signed
infinity, or NaN.  NumPy division never raises; dividing a positive number by
zero yields `inf`, a negative one `-inf`, and `0/0` yields `nan`. -/
inductive PyF where
  | fin : ℚ → PyF
  | inf : PyF
  | ninf : PyF
  | nan : PyF
deriving DecidableEq

/-- Models NumPy float division `a / b`: finite quotient when `b ≠ 0`,
otherwise the IEEE special value determined by the sign of `a`. -/
def pyDiv (a b : ℚ) : PyF :=
  if b = 0 then
    if 0 < a then PyF.inf else if a < 0 then PyF.ninf else PyF.nan
  else
    PyF.fin (a / b)

/-- True exactly on finite values. -/
def PyF.isFinite : PyF → Bool
  | PyF.fin _ => true
  | _ => false

/-- Rational square root used to model the float `sqrt` inside
`np.linalg.norm`: exact whenever the argument is the square of a rational
(numerator and denominator of the reduced form are perfect squares), and in
every case positive iff the argument is positive. -/
def ratSqrt (q : ℚ) : ℚ :=
  if 0 ≤ q then (Nat.sqrt q.num.toNat : ℚ) / (Nat.sqrt q.den : ℚ) else 0

/-- Models `np.linalg.norm` on a 2-vector (source line 180):
`sqrt (x² + y²)`. -/
def pyNorm (x y : ℚ) : ℚ := ratSqrt (x ^ 2 + y ^ 2)

/-- Dot product of 2-vectors, modelling `np.dot` on rows of two columns. -/
def dot2 (a b : ℚ × ℚ) : ℚ := a.1 * b.1 + a.2 * b.2

/-- One row of the movement DataFrame produced by
`_compute_individual_movement`: columns `ID`, `frame`, `start` (a point),
`end` (a point) and `window_size`. -/
structure MovementRow where
  id : Int
  frame : Int
  startX : ℚ
  startY : ℚ
  endX : ℚ
  endY : ℚ
  window_size : ℚ
deriving DecidableEq

/-- A caller-owned movement DataFrame: its rows plus the derived columns the
callee may have added to the caller's object in place (pandas column
assignment mutates the frame it is applied to).  A freshly supplied input
table has `extra = []`. -/
structure MovementTable where
  rows : List MovementRow
  extra : List (String × List PyF)
deriving DecidableEq

/-- One row of the speed DataFrame returned by `_compute_individual_speed`:
columns `ID`, `frame`, `speed`, and `v_x`/`v_y` present only when
`x_y_components` was requested. -/
structure SpeedRow where
  id : Int
  frame : Int
  speed : PyF
  v_x : Option PyF
  v_y : Option PyF
deriving DecidableEq

/-- The returned speed DataFrame, with the column-selection flag. -/
structure SpeedTable where
  hasComponents : Bool
  rows : List SpeedRow
deriving DecidableEq

/-- Raw displacement `end_point - start_point` (source lines 175-177). -/
def rawDisp (r : MovementRow) : ℚ × ℚ := (r.endX - r.startX, r.endY - r.startY)

/-- The value the source stores back into `d_x`,`d_y` when a movement
direction is supplied (lines 185-192):
`np.dot(disp, d)[:, None] * movement_direction * norm_movement_direction`
with `norm_movement_direction = np.dot(d, d)`, i.e. componentwise
`(disp·d) * d_j * (d·d)`. -/
def projDisp (dsp d : ℚ × ℚ) : ℚ × ℚ :=
  (dot2 dsp d * d.1 * dot2 d d, dot2 dsp d * d.2 * dot2 d d)

/-- The displacement held by columns `d_x`,`d_y` after the optional
direction branch: raw when no direction is supplied, overwritten by
`projDisp` otherwise. -/
def dispAfter (dsp : ℚ × ℚ) : Option (ℚ × ℚ) → ℚ × ℚ
  | none => dsp
  | some d => projDisp dsp d

/-- Per-row `time_interval = window_size / frame_rate` (line 172).  Exact
for `frame_rate ≠ 0`; all theorems touching it assume a positive frame
rate. -/
def timeInterval (ws fr : ℚ) : ℚ := ws / fr

/-- The final value of the `speed` column for one row: without a direction
it is `norm(d_x, d_y) / time_interval` computed from the raw displacement
(lines 179-181); with a direction it is recomputed (lines 193-197) as
`np.dot([d_x, d_y], d) / np.linalg.norm(d) / time_interval`, where `d_x`,
`d_y` hold the already-overwritten `projDisp` values. -/
def scalarSpeed (dsp : ℚ × ℚ) (dir : Option (ℚ × ℚ)) (dt : ℚ) : PyF :=
  match dir with
  | none => pyDiv (pyNorm dsp.1 dsp.2) dt
  | some d => pyDiv (dot2 (projDisp dsp d) d / ratSqrt (dot2 d d)) dt

/-- The output row built for one movement row: `v_x = d_x / time_interval`
and `v_y = d_y / time_interval` (lines 200-201) from the post-branch
displacement, present only when `x_y_components` is set. -/
def speedRowOf (r : MovementRow) (fr : ℚ) (dir : Option (ℚ × ℚ))
    (xy : Bool) : SpeedRow :=
  let dt := timeInterval r.window_size fr
  let dsp := dispAfter (rawDisp r) dir
  { id := r.id
    frame := r.frame
    speed := scalarSpeed (rawDisp r) dir dt
    v_x := if xy then some (pyDiv dsp.1 dt) else none
    v_y := if xy then some (pyDiv dsp.2 dt) else none }

/-- Embedding of `_compute_individual_speed` (source lines 148-205).  The
first component is the returned DataFrame `movement_data[columns]`; the
second is the caller's `movement_data` after the call, which has gained the
in-place columns `d_x`, `d_y`, `speed`, and `v_x`, `v_y` when
`x_y_components` is set. -/
def _compute_individual_speed (movement_data : MovementTable) (frame_rate : ℚ)
    (movement_direction : Option (ℚ × ℚ)) (x_y_components : Bool) :
    SpeedTable × MovementTable :=
  let rows := movement_data.rows
  let outRows := rows.map (fun r => speedRowOf r frame_rate movement_direction x_y_components)
  let dxs := rows.map (fun r => PyF.fin (dispAfter (rawDisp r) movement_direction).1)
  let dys := rows.map (fun r => PyF.fin (dispAfter (rawDisp r) movement_direction).2)
  let speeds := rows.map (fun r =>
    scalarSpeed (rawDisp r) movement_direction (timeInterval r.window_size frame_rate))
  let vxs := rows.map (fun r =>
    pyDiv (dispAfter (rawDisp r) movement_direction).1 (timeInterval r.window_size frame_rate))
  let vys := rows.map (fun r =>
    pyDiv (dispAfter (rawDisp r) movement_direction).2 (timeInterval r.window_size frame_rate))
  ({ hasComponents := x_y_components, rows := outRows },
   { rows := rows
     extra := movement_data.extra
       ++ [("d_x", dxs), ("d_y", dys), ("speed", speeds)]
       ++ (if x_y_components then [("v_x", vxs), ("v_y", vys)] else []) })

/-- One row of `traj_data.data`: columns `ID`, `frame` and the pedestrian's
position (the `points` column, modelled by its x/y coordinates). -/
structure TrajRow where
  id : Int
  frame : Int
  x : ℚ
  y : ℚ
deriving DecidableEq

/-- One row of an individual-velocity DataFrame restricted to the columns the
aggregation functions read: `ID`, `frame`, `speed`. -/
structure VelRow where
  id : Int
  frame : Int
  speed : ℚ
deriving DecidableEq

/-- A measurement area: its polygon (vertex list, convex and in
counter-clockwise order in every use below) and its scalar `area` as exposed
by shapely. -/
structure MeasurementArea where
  vertices : List (ℚ × ℚ)
  area : ℚ
deriving DecidableEq

/-- Cross product of the edge `o→a` with `o→p`; positive iff `p` is strictly
to the left of the directed edge. -/
def cross2 (o a p : ℚ × ℚ) : ℚ :=
  (a.1 - o.1) * (p.2 - o.2) - (a.2 - o.2) * (p.1 - o.1)

/-- The directed edge list of a polygon given by its vertices. -/
def polyEdges (vs : List (ℚ × ℚ)) : List ((ℚ × ℚ) × (ℚ × ℚ)) :=
  vs.zip (vs.rotate 1)

/-- Models `shapely.within(point, polygon)` (source line 74) for a convex
polygon with counter-clockwise vertices: true iff the point lies strictly in
the interior.  Shapely's `within` requires the point to intersect only the
interior of the polygon, so a point on the boundary is NOT within. -/
def shapelyWithin (p : ℚ × ℚ) (vs : List (ℚ × ℚ)) : Bool :=
  (polyEdges vs).all (fun e => decide (0 < cross2 e.1 e.2 p))

/-- Boundary-inclusive point-in-polygon test, following the spec's words
("within (inclusive boundary) the measurement area polygon"): the point may
also lie on the boundary.  This is the spec-side membership used to compare
against the code's `shapelyWithin`. -/
def within_inclusive (p : ℚ × ℚ) (vs : List (ℚ × ℚ)) : Bool :=
  (polyEdges vs).all (fun e => decide (0 ≤ cross2 e.1 e.2 p))

/-- Minimum of a list of integers, modelling `Series.min()`: `none` on an
empty column (pandas yields NaN, which makes every comparison false). -/
def listMin? : List Int → Option Int
  | [] => none
  | a :: t =>
    match listMin? t with
    | none => some a
    | some b => some (min a b)

/-- Maximum of a list of integers, modelling `Series.max()`. -/
def listMax? : List Int → Option Int
  | [] => none
  | a :: t =>
    match listMax? t with
    | none => some a
    | some b => some (max a b)

/-- Models `traj_data.data.frame.min()`; the default is irrelevant, all uses
are on non-empty trajectory tables. -/
def minFrame (traj : List TrajRow) : Int :=
  (listMin? (traj.map (fun r => r.frame))).getD 0

/-- Models `traj_data.data.frame.max()`. -/
def maxFrame (traj : List TrajRow) : Int :=
  (listMax? (traj.map (fun r => r.frame))).getD 0

/-- Models `list(range(min, max + 1))`: the dense frame index used by
`reindex` (source lines 78-81 and 116-119). -/
def framesRange (m M : Int) : List Int :=
  (List.range (M - m + 1).toNat).map (fun k : ℕ => m + (k : Int))

/-- Inner merge of the trajectory table with an individual-velocity table on
`(ID, frame)` (source line 72): each trajectory row is paired with the speed
of every velocity row sharing its keys. -/
def mergeTrajVel (traj : List TrajRow) (vel : List VelRow) : List (TrajRow × ℚ) :=
  traj.flatMap (fun t =>
    (vel.filter (fun v => decide (v.id = t.id) && decide (v.frame = t.frame))).map
      (fun v => (t, v.speed)))

/-- The merged rows whose position passes the `shapely.within` mask
(source line 74). -/
def inAreaRows (traj : List TrajRow) (vel : List VelRow) (ma : MeasurementArea) :
    List (TrajRow × ℚ) :=
  (mergeTrajVel traj vel).filter (fun c => shapelyWithin (c.1.x, c.1.y) ma.vertices)

/-- Spec-side variant of `inAreaRows` with boundary-inclusive membership. -/
def inAreaRows_spec (traj : List TrajRow) (vel : List VelRow) (ma : MeasurementArea) :
    List (TrajRow × ℚ) :=
  (mergeTrajVel traj vel).filter (fun c => within_inclusive (c.1.x, c.1.y) ma.vertices)

/-- The per-frame value after `groupby(frame).speed.mean()` followed by
`reindex(..., fill_value=0.0)`: the mean of the qualifying speeds when the
frame has any, `0.0` otherwise. -/
def meanAtFrame (rows : List (TrajRow × ℚ)) (f : Int) : ℚ :=
  let s := rows.filter (fun c => decide (c.1.frame = f))
  if s.isEmpty then 0 else (s.map (fun c => c.2)).sum / (s.length : ℚ)

/-- Embedding of `compute_mean_velocity_per_frame` (source lines 53-82):
merge, filter by strict `within`, average per frame, reindex densely over
`[min_frame, max_frame]` filling missing frames with `0.0`. -/
def compute_mean_velocity_per_frame (traj_data : List TrajRow)
    (individual_velocity : List VelRow) (measurement_area : MeasurementArea) :
    List (Int × ℚ) :=
  (framesRange (minFrame traj_data) (maxFrame traj_data)).map
    (fun f => (f, meanAtFrame (inAreaRows traj_data individual_velocity measurement_area) f))

/-- Spec-side variant of `compute_mean_velocity_per_frame` whose membership
test is boundary-inclusive, following the spec's words. -/
def compute_mean_velocity_per_frame_spec (traj_data : List TrajRow)
    (individual_velocity : List VelRow) (measurement_area : MeasurementArea) :
    List (Int × ℚ) :=
  (framesRange (minFrame traj_data) (maxFrame traj_data)).map
    (fun f => (f, meanAtFrame (inAreaRows_spec traj_data individual_velocity measurement_area) f))

/-- One row of the Voronoi-intersection table.  The geometry column
`voronoi_ma_intersection` enters the computation only through
`shapely.area` (source line 111), so it is modelled by that area. -/
structure VoronoiRow where
  id : Int
  frame : Int
  interArea : ℚ
deriving DecidableEq

/-- The merged rows of `pd.merge(intersection, velocity, on=["ID","frame"])`
with the weighted speed `area(intersection) * speed / measurement_area.area`
(source lines 107-114), keyed by frame. -/
def voronoiWeights (vor : List VoronoiRow) (vel : List VelRow) (area : ℚ) :
    List (Int × ℚ) :=
  vor.flatMap (fun w =>
    (vel.filter (fun v => decide (v.id = w.id) && decide (v.frame = w.frame))).map
      (fun v => (w.frame, w.interArea * v.speed / area)))

/-- The per-frame value after `groupby(frame).speed.sum()` with zero fill:
the sum over weighted rows of that frame (an absent frame sums to `0`). -/
def voronoiSumAtFrame (ws : List (Int × ℚ)) (f : Int) : ℚ :=
  ((ws.filter (fun c => decide (c.1 = f))).map (fun c => c.2)).sum

/-- Embedding of `compute_voronoi_velocity` (source lines 85-120): weight
each merged row by its intersection-area share, sum per frame, reindex
densely over `[min_frame, max_frame]` with `0.0` fill. -/
def compute_voronoi_velocity (traj_data : List TrajRow) (individual_velocity : List VelRow)
    (individual_voronoi_intersection : List VoronoiRow)
    (measurement_area : MeasurementArea) : List (Int × ℚ) :=
  (framesRange (minFrame traj_data) (maxFrame traj_data)).map
    (fun f => (f, voronoiSumAtFrame
      (voronoiWeights individual_voronoi_intersection individual_velocity
        measurement_area.area) f))

/-- One row of the `frames_in_area` table restricted to the columns
`compute_passing_speed` reads: `ID`, `frame_start`, `frame_end`. -/
structure PassingRow where
  id : Int
  frame_start : Int
  frame_end : Int
deriving DecidableEq

/-- Embedding of `compute_passing_speed` (source lines 123-145):
`speed = frame_rate * distance / abs(frame_end - frame_start)` per row, with
NumPy float division (no zero guard in the source). -/
def compute_passing_speed (frames_in_area : List PassingRow) (frame_rate distance : ℚ) :
    List (Int × PyF) :=
  frames_in_area.map (fun r =>
    (r.id, pyDiv (frame_rate * distance) ((|r.frame_end - r.frame_start| : Int) : ℚ)))

/-- Caller-visible state of the inputs of `compute_mean_velocity_per_frame`
after the call.  The source assigns into no caller-supplied frame: `merge`
returns a fresh DataFrame and the remaining operations are selections, so
the caller's tables are returned unchanged. -/
def compute_mean_velocity_per_frame_post (traj_data : List TrajRow)
    (individual_velocity : List VelRow) (measurement_area : MeasurementArea) :
    List TrajRow × List VelRow × MeasurementArea :=
  (traj_data, individual_velocity, measurement_area)

/-- Caller-visible state of the inputs of `compute_voronoi_velocity` after
the call.  The single column assignment (line 110) targets `df_voronoi`, the
fresh frame returned by `pd.merge` on line 107, so the caller's tables are
unchanged. -/
def compute_voronoi_velocity_post (traj_data : List TrajRow)
    (individual_velocity : List VelRow)
    (individual_voronoi_intersection : List VoronoiRow)
    (measurement_area : MeasurementArea) :
    List TrajRow × List VelRow × List VoronoiRow × MeasurementArea :=
  (traj_data, individual_velocity, individual_voronoi_intersection, measurement_area)

/-- Caller-visible state of the input of `compute_passing_speed` after the
call.  The assignment on line 140 targets the fresh frame created by the
`pd.DataFrame` constructor on line 139, so `frames_in_area` is unchanged. -/
def compute_passing_speed_post (frames_in_area : List PassingRow) :
    List PassingRow :=
  frames_in_area

/-- Ordering of trajectory rows by their frame column (the sort key of
`sort_values(by=["frame"])`). -/
def frameLE (a b : TrajRow) : Prop := a.frame ≤ b.frame

instance : DecidableRel frameLE := fun a b => Int.decLe a.frame b.frame

instance : IsTotal TrajRow frameLE := ⟨fun a b => Int.le_total a.frame b.frame⟩

instance : IsTrans TrajRow frameLE := ⟨fun _ _ _ hab hbc => le_trans hab hbc⟩

/-- Models `sort_values(by=["frame"])`.  Frames are unique per pedestrian
(data-model invariant), so any comparison sort yields this result. -/
def sortByFrame (l : List TrajRow) : List TrajRow := List.insertionSort frameLE l

/-- The rows of one pedestrian, sorted by frame (source lines 72-74). -/
def pedRows (data : List TrajRow) (pid : Int) : List TrajRow :=
  sortByFrame (data.filter (fun r => decide (r.id = pid)))

/-- The frame column of one pedestrian's rows. -/
def pedFrames (data : List TrajRow) (pid : Int) : List Int :=
  (pedRows data pid).map (fun r => r.frame)

/-- Twice the lower bound selected by `get_pedestrian_positions` (source
lines 76-78): `frame - window/2` when the pedestrian's earliest observed
frame is `≤ frame - window/2`, else `frame` itself.  The source compares
against the exact binary float `frame - window/2`; scaling every comparison
by 2 keeps the model in `ℤ` and is exact.  An empty frame column gives NaN,
whose comparison is false, selecting `frame`. -/
def windowLB2 (data : List TrajRow) (frame pid window : Int) : Int :=
  match listMin? (pedFrames data pid) with
  | none => 2 * frame
  | some m => if 2 * m ≤ 2 * frame - window then 2 * frame - window else 2 * frame

/-- Twice the upper bound selected by `get_pedestrian_positions` (source
lines 79-81): `frame + window/2` when the pedestrian's latest observed frame
is `≥ frame + window/2`, else `frame`. -/
def windowUB2 (data : List TrajRow) (frame pid window : Int) : Int :=
  match listMax? (pedFrames data pid) with
  | none => 2 * frame
  | some M => if 2 * frame + window ≤ 2 * M then 2 * frame + window else 2 * frame

/-- The rows selected by `get_pedestrian_positions` (source lines 83-86):
the pedestrian's rows whose frame lies in `[min_frame, max_frame]`, sorted
by frame (the source sorts the selection again). -/
def pedWindowRows (data : List TrajRow) (frame pid window : Int) : List TrajRow :=
  sortByFrame ((pedRows data pid).filter (fun r =>
    decide (windowLB2 data frame pid window ≤ 2 * r.frame) &&
    decide (2 * r.frame ≤ windowUB2 data frame pid window)))

/-- Embedding of `TrajectoryData.get_pedestrian_positions` (source lines
56-90): the positions of the selected rows, in frame order. -/
def get_pedestrian_positions (data : List TrajRow) (frame pid window : Int) :
    List (ℚ × ℚ) :=
  (pedWindowRows data frame pid window).map (fun r => (r.x, r.y))

/-- Twice the lower bound in the claim's reading: the earliest frame the
pedestrian was observed at that is `≥ frame - window/2` (falling back to
`frame` when there is none). -/
def claimLB2 (data : List TrajRow) (frame pid window : Int) : Int :=
  match listMin? ((pedFrames data pid).filter (fun fr => decide (2 * frame - window ≤ 2 * fr))) with
  | some m => 2 * m
  | none => 2 * frame

/-- Twice the upper bound in the claim's reading: the latest frame the
pedestrian was observed at that is `≤ frame + window/2`. -/
def claimUB2 (data : List TrajRow) (frame pid window : Int) : Int :=
  match listMax? ((pedFrames data pid).filter (fun fr => decide (2 * fr ≤ 2 * frame + window))) with
  | some M => 2 * M
  | none => 2 * frame

/-- The selection described by claim C7: the pedestrian's rows inside the
interval bounded by the earliest observed frame `≥ frame - window/2` and the
latest observed frame `≤ frame + window/2`. -/
def pedWindowRowsClaim (data : List TrajRow) (frame pid window : Int) : List TrajRow :=
  sortByFrame ((pedRows data pid).filter (fun r =>
    decide (claimLB2 data frame pid window ≤ 2 * r.frame) &&
    decide (2 * r.frame ≤ claimUB2 data frame pid window)))

/-- The position list described by claim C7. -/
def get_pedestrian_positions_claim (data : List TrajRow) (frame pid window : Int) :
    List (ℚ × ℚ) :=
  (pedWindowRowsClaim data frame pid window).map (fun r => (r.x, r.y))

/-- Auxiliary: `ratSqrt` is exact on squares of nonnegative rationals. -/
theorem ratSqrt_eq_of_sq {s : ℚ} (hs : 0 ≤ s) : ratSqrt (s ^ 2) = s := by
  have hnum : 0 ≤ s.num := Rat.num_nonneg.mpr hs
  have hsq : (0:ℚ) ≤ s ^ 2 := sq_nonneg s
  rw [ratSqrt, if_pos hsq]
  have h1 : (s ^ 2).num = s.num ^ 2 := Rat.num_pow s 2
  have h2 : (s ^ 2).den = s.den ^ 2 := Rat.den_pow s 2
  rw [h1, h2]
  have h3 : (s.num ^ 2).toNat = s.num.toNat ^ 2 := by
    obtain ⟨a, ha⟩ : ∃ a : ℕ, s.num = (a : ℤ) := ⟨s.num.toNat, (Int.toNat_of_nonneg hnum).symm⟩
    rw [ha, ← Nat.cast_pow, Int.toNat_ofNat, Int.toNat_ofNat]
  rw [h3]
  have hsq1 : Nat.sqrt (s.num.toNat ^ 2) = s.num.toNat :=
    (Nat.eq_sqrt'.mpr ⟨le_refl _, Nat.pow_lt_pow_left (Nat.lt_succ_self _) (by norm_num)⟩).symm
  have hsq2 : Nat.sqrt (s.den ^ 2) = s.den :=
    (Nat.eq_sqrt'.mpr ⟨le_refl _, Nat.pow_lt_pow_left (Nat.lt_succ_self _) (by norm_num)⟩).symm
  rw [hsq1, hsq2]
  have h4 : ((s.num.toNat : ℚ)) = ((s.num : ℤ) : ℚ) := by
    rw [← Int.toNat_of_nonneg hnum]
    push_cast
    rw [Int.toNat_of_nonneg hnum]
  rw [h4]
  exact Rat.num_div_den s

/-- Auxiliary: `ratSqrt` preserves strict positivity, whether or not its
argument is a perfect square. -/
theorem ratSqrt_pos {q : ℚ} (h : 0 < q) : 0 < ratSqrt q := by
  rw [ratSqrt, if_pos h.le]
  have hnum : 0 < q.num := Rat.num_pos.mpr h
  apply div_pos
  · have : 0 < q.num.toNat := by omega
    exact_mod_cast Nat.sqrt_pos.mpr this
  · exact_mod_cast Nat.sqrt_pos.mpr q.den_pos

/-- Auxiliary: `ratSqrt 0 = 0`. -/
theorem ratSqrt_zero : ratSqrt (0 : ℚ) = 0 := by
  have h : ratSqrt ((0:ℚ) ^ 2) = 0 := ratSqrt_eq_of_sq (le_refl 0)
  simpa using h

/-- Auxiliary: `ratSqrt 4 = 2`. -/
theorem ratSqrt_four : ratSqrt (4 : ℚ) = 2 := by
  rw [show (4:ℚ) = 2 ^ 2 by norm_num]
  exact ratSqrt_eq_of_sq (by norm_num)

/-- Auxiliary: `ratSqrt 25 = 5`. -/
theorem ratSqrt_twentyfive : ratSqrt (25 : ℚ) = 5 := by
  rw [show (25:ℚ) = 5 ^ 2 by norm_num]
  exact ratSqrt_eq_of_sq (by norm_num)

/-- Auxiliary: dividing by a zero denominator never yields a finite value. -/
theorem pyDiv_zero_not_finite (a : ℚ) : (pyDiv a 0).isFinite = false := by
  rw [pyDiv, if_pos rfl]
  split
  · rfl
  · split <;> rfl

/-- Auxiliary: a positive numerator over a zero denominator is `inf`. -/
theorem pyDiv_zero_of_pos {a : ℚ} (h : 0 < a) : pyDiv a 0 = PyF.inf := by
  rw [pyDiv, if_pos rfl, if_pos h]

/-- Auxiliary: `0 / 0` is NaN. -/
theorem pyDiv_zero_zero : pyDiv 0 0 = PyF.nan := by
  rw [pyDiv, if_pos rfl, if_neg (lt_irrefl 0), if_neg (lt_irrefl 0)]

/-- Auxiliary: the norm of the zero vector is `0`. -/
theorem pyNorm_zero : pyNorm 0 0 = 0 := by
  rw [pyNorm]
  norm_num [ratSqrt_zero]

/-- Auxiliary: the norm of a non-zero vector is positive (true whether or
not the squared norm is a perfect square). -/
theorem pyNorm_pos {x y : ℚ} (h : ¬(x = 0 ∧ y = 0)) : 0 < pyNorm x y := by
  rw [pyNorm]
  apply ratSqrt_pos
  rcases not_and_or.mp h with hx | hy
  · have h1 : 0 < x ^ 2 := lt_of_le_of_ne (sq_nonneg x) (Ne.symm (pow_ne_zero 2 hx))
    have h2 : (0:ℚ) ≤ y ^ 2 := sq_nonneg y
    linarith
  · have h1 : 0 < y ^ 2 := lt_of_le_of_ne (sq_nonneg y) (Ne.symm (pow_ne_zero 2 hy))
    have h2 : (0:ℚ) ≤ x ^ 2 := sq_nonneg x
    linarith

/-- Auxiliary: `listMin?` is `none` exactly on the empty list. -/
theorem listMin?_eq_none {l : List Int} : listMin? l = none ↔ l = [] := by
  cases l with
  | nil => simp [listMin?]
  | cons a t =>
    rw [listMin?]
    cases h : listMin? t <;> simp

/-- Auxiliary: `listMax?` is `none` exactly on the empty list. -/
theorem listMax?_eq_none {l : List Int} : listMax? l = none ↔ l = [] := by
  cases l with
  | nil => simp [listMax?]
  | cons a t =>
    rw [listMax?]
    cases h : listMax? t <;> simp

/-- Auxiliary: the minimum of a list is one of its members. -/
theorem listMin?_mem {l : List Int} {a : Int} (h : listMin? l = some a) : a ∈ l := by
  induction l generalizing a with
  | nil => simp [listMin?] at h
  | cons x t ih =>
    rw [listMin?] at h
    cases ht : listMin? t with
    | none =>
      rw [ht] at h
      simp at h
      simp [h]
    | some b =>
      rw [ht] at h
      simp at h
      rcases le_total x b with hxb | hbx
      · rw [min_eq_left hxb] at h
        simp [h]
      · rw [min_eq_right hbx] at h
        exact h ▸ List.mem_cons_of_mem _ (ih ht)

/-- Auxiliary: the maximum of a list is one of its members. -/
theorem listMax?_mem {l : List Int} {a : Int} (h : listMax? l = some a) : a ∈ l := by
  induction l generalizing a with
  | nil => simp [listMax?] at h
  | cons x t ih =>
    rw [listMax?] at h
    cases ht : listMax? t with
    | none =>
      rw [ht] at h
      simp at h
      simp [h]
    | some b =>
      rw [ht] at h
      simp at h
      rcases le_total x b with hxb | hbx
      · rw [max_eq_right hxb] at h
        exact h ▸ List.mem_cons_of_mem _ (ih ht)
      · rw [max_eq_left hbx] at h
        simp [h]

/-- Auxiliary: the minimum is a lower bound. -/
theorem listMin?_le {l : List Int} {a b : Int} (h : listMin? l = some a) (hb : b ∈ l) :
    a ≤ b := by
  induction l generalizing a with
  | nil => cases hb
  | cons x t ih =>
    rw [listMin?] at h
    cases ht : listMin? t with
    | none =>
      rw [ht] at h
      have hte : t = [] := listMin?_eq_none.mp ht
      subst hte
      simp at h hb
      omega
    | some c =>
      rw [ht] at h
      simp at h
      subst h
      rcases List.mem_cons.mp hb with rfl | hbt
      · exact min_le_left _ _
      · exact le_trans (min_le_right _ _) (ih ht hbt)

/-- Auxiliary: the maximum is an upper bound. -/
theorem listMax?_ge {l : List Int} {a b : Int} (h : listMax? l = some a) (hb : b ∈ l) :
    b ≤ a := by
  induction l generalizing a with
  | nil => cases hb
  | cons x t ih =>
    rw [listMax?] at h
    cases ht : listMax? t with
    | none =>
      rw [ht] at h
      have hte : t = [] := listMax?_eq_none.mp ht
      subst hte
      simp at h hb
      omega
    | some c =>
      rw [ht] at h
      simp at h
      subst h
      rcases List.mem_cons.mp hb with rfl | hbt
      · exact le_max_left _ _
      · exact le_trans (ih ht hbt) (le_max_right _ _)

/-- Auxiliary: on a non-empty trajectory table the observed minimum frame is
at most the observed maximum frame. -/
theorem minFrame_le_maxFrame {traj : List TrajRow} (h : traj ≠ []) :
    minFrame traj ≤ maxFrame traj := by
  have hne : traj.map (fun r => r.frame) ≠ [] := by simpa using h
  obtain ⟨m, hm⟩ : ∃ m, listMin? (traj.map (fun r => r.frame)) = some m := by
    cases hx : listMin? (traj.map fun r => r.frame) with
    | none => exact absurd (listMin?_eq_none.mp hx) hne
    | some m => exact ⟨m, rfl⟩
  obtain ⟨M, hM⟩ : ∃ M, listMax? (traj.map (fun r => r.frame)) = some M := by
    cases hx : listMax? (traj.map fun r => r.frame) with
    | none => exact absurd (listMax?_eq_none.mp hx) hne
    | some M => exact ⟨M, rfl⟩
  rw [minFrame, maxFrame, hm, hM, Option.getD_some, Option.getD_some]
  exact listMin?_le hm (listMax?_mem hM)

/-- C1 counterexample: with movement row start `(0,0)`, end `(0,1)`,
`window_size = 1`, `frame_rate = 1`, supplying the direction `(1,0)` changes
the `v_y` column (it becomes `0`) relative to the call without a direction
(where it is `1`), refuting "supplying a direction changes only the scalar
'speed' column, never the v_x and v_y columns". -/
theorem C1_direction_changes_components_counterexample :
    ((_compute_individual_speed ⟨[⟨1, 0, 0, 0, 0, 1, 1⟩], []⟩ 1 (some (1, 0)) true).1.rows.map
        (fun s => s.v_y)) ≠
      ((_compute_individual_speed ⟨[⟨1, 0, 0, 0, 0, 1, 1⟩], []⟩ 1 none true).1.rows.map
        (fun s => s.v_y)) ∧
    ((_compute_individual_speed ⟨[⟨1, 0, 0, 0, 0, 1, 1⟩], []⟩ 1 none true).1.rows.map
        (fun s => s.v_y)) = [some (PyF.fin 1)] := by
  constructor
  · norm_num [_compute_individual_speed, speedRowOf, dispAfter, projDisp, rawDisp,
      timeInterval, pyDiv, dot2]
  · norm_num [_compute_individual_speed, speedRowOf, dispAfter, rawDisp,
      timeInterval, pyDiv]

/-- C1 (amended): when `x_y_components` is requested, the `v_x`/`v_y`
columns are the displacement actually stored in `d_x`/`d_y` divided by the
time interval: the raw displacement when no movement direction is supplied,
but the overwritten value `(disp·d)·(d·d)·d` when a direction `d` is
supplied — so a direction changes the components as well as the scalar
speed. -/
theorem C1_components_follow_stored_displacement :
    ∀ (t : MovementTable) (fr : ℚ) (d : ℚ × ℚ),
      ((_compute_individual_speed t fr none true).1.rows.map (fun s => (s.v_x, s.v_y)) =
        t.rows.map (fun r => (some (pyDiv (rawDisp r).1 (timeInterval r.window_size fr)),
                              some (pyDiv (rawDisp r).2 (timeInterval r.window_size fr))))) ∧
      ((_compute_individual_speed t fr (some d) true).1.rows.map (fun s => (s.v_x, s.v_y)) =
        t.rows.map (fun r =>
          (some (pyDiv (projDisp (rawDisp r) d).1 (timeInterval r.window_size fr)),
           some (pyDiv (projDisp (rawDisp r) d).2 (timeInterval r.window_size fr))))) := by
  intro t fr d
  constructor <;> simp [_compute_individual_speed, speedRowOf, dispAfter]

/-- C2: evaluating the code at the failing input (displacement `(1,0)`,
`window_size = 1`, `frame_rate = 1`, direction `d = (2,0)`): the source
computes the scalar speed from the already-overwritten `d_x`,`d_y`, which
were multiplied (not divided) by `norm_movement_direction = d·d`, yielding
`16`, while the claimed formula `dot(disp, d) / |d| / time_interval`
evaluates to `1`. -/
theorem C2_projection_scaling_divergence :
    ((_compute_individual_speed ⟨[⟨1, 0, 0, 0, 1, 0, 1⟩], []⟩ 1 (some (2, 0)) false).1.rows.map
        SpeedRow.speed) = [PyF.fin 16] ∧
      dot2 (1, 0) (2, 0) / ratSqrt (dot2 (2, 0) (2, 0)) / timeInterval 1 1 = 1 := by
  constructor
  · norm_num [_compute_individual_speed, speedRowOf, scalarSpeed, dispAfter, projDisp,
      rawDisp, timeInterval, pyDiv, dot2, ratSqrt_four]
  · norm_num [dot2, timeInterval, ratSqrt_four]

/-- C4 counterexample: a movement row with `window_size = 0` and non-zero
displacement `(3,4)` makes `_compute_individual_speed` return a table whose
`speed` entry is `inf` — no error is raised, refuting "fails with a defined,
explicitly raised error rather than silently producing infinity or NaN in
the returned table". -/
theorem C4_zero_window_returns_infinity_counterexample :
    ((_compute_individual_speed ⟨[⟨1, 0, 0, 0, 3, 4, 0⟩], []⟩ 1 none false).1.rows.map
      SpeedRow.speed) = [PyF.inf] := by
  norm_num [_compute_individual_speed, speedRowOf, scalarSpeed, dispAfter, rawDisp,
    timeInterval, pyNorm, pyDiv, ratSqrt_twentyfive]

/-- C4 (amended): for a row with `window_size = 0` (and a positive frame
rate) `_compute_individual_speed` raises no error and returns a row whose
`speed` is never finite; without a direction it is `inf` for a non-zero
displacement and NaN for a zero displacement. -/
theorem C4_zero_window_no_error :
    ∀ (t : MovementTable) (fr : ℚ) (dir : Option (ℚ × ℚ)) (xy : Bool) (i : ℕ)
      (r : MovementRow),
      0 < fr → t.rows[i]? = some r → r.window_size = 0 →
      ∃ s : SpeedRow, ((_compute_individual_speed t fr dir xy).1.rows)[i]? = some s ∧
        s.speed.isFinite = false ∧
        (dir = none → s.speed = if rawDisp r = (0, 0) then PyF.nan else PyF.inf) := by
  intro t fr dir xy i r hfr hrow hws
  have hdt : timeInterval r.window_size fr = 0 := by rw [hws, timeInterval, zero_div]
  refine ⟨speedRowOf r fr dir xy, ?_, ?_, ?_⟩
  · simp [_compute_individual_speed, List.getElem?_map, hrow]
  · have hspeed : (speedRowOf r fr dir xy).speed = scalarSpeed (rawDisp r) dir 0 := by
      rw [speedRowOf, ← hdt]
    rw [hspeed]
    cases dir with
    | none => exact pyDiv_zero_not_finite _
    | some d => exact pyDiv_zero_not_finite _
  · intro hdir
    subst hdir
    have hspeed : (speedRowOf r fr none xy).speed = scalarSpeed (rawDisp r) none 0 := by
      rw [speedRowOf, ← hdt]
    rw [hspeed, scalarSpeed]
    by_cases hz : rawDisp r = (0, 0)
    · rw [if_pos hz, hz]
      simpa [pyNorm_zero] using pyDiv_zero_zero
    · rw [if_neg hz]
      have hne : ¬((rawDisp r).1 = 0 ∧ (rawDisp r).2 = 0) := by
        intro hc
        exact hz (Prod.ext hc.1 hc.2)
      exact pyDiv_zero_of_pos (pyNorm_pos hne)

/-- C4 witness: the amended theorem applied at the concrete degenerate
input. -/
theorem C4_zero_window_no_error_witness :
    0 < (1:ℚ) ∧
    ∃ s : SpeedRow,
      ((_compute_individual_speed ⟨[⟨1, 0, 0, 0, 3, 4, 0⟩], []⟩ 1 none false).1.rows)[0]? =
          some s ∧
        s.speed.isFinite = false ∧
        ((none : Option (ℚ × ℚ)) = none →
          s.speed = if rawDisp ⟨1, 0, 0, 0, 3, 4, 0⟩ = (0, 0) then PyF.nan else PyF.inf) :=
  ⟨by norm_num,
   C4_zero_window_no_error ⟨[⟨1, 0, 0, 0, 3, 4, 0⟩], []⟩ 1 none false 0 ⟨1, 0, 0, 0, 3, 4, 0⟩
     (by norm_num) rfl rfl⟩

/-- C5 counterexample: a `frames_in_area` row with `frame_start = frame_end
= 100` makes `compute_passing_speed` (frame rate 25, distance 2) return the
row `(1, inf)` — the division by zero is not guarded and no error is
raised. -/
theorem C5_equal_frames_infinite_speed_counterexample :
    compute_passing_speed [⟨1, 100, 100⟩] 25 2 = [(1, PyF.inf)] := by
  norm_num [compute_passing_speed, pyDiv]

/-- C5 (amended): `compute_passing_speed` has no guard: a row with
`frame_end = frame_start` (and positive `frame_rate * distance`) yields the
value `inf` in the returned table instead of an error. -/
theorem C5_equal_frames_no_guard :
    ∀ (rows : List PassingRow) (fr dist : ℚ) (i : ℕ) (r : PassingRow),
      rows[i]? = some r → r.frame_end = r.frame_start → 0 < fr * dist →
      (compute_passing_speed rows fr dist)[i]? = some (r.id, PyF.inf) := by
  intro rows fr dist i r hrow heq hpos
  have hval : (compute_passing_speed rows fr dist)[i]? =
      some (r.id, pyDiv (fr * dist) ((|r.frame_end - r.frame_start| : Int) : ℚ)) := by
    rw [compute_passing_speed, List.getElem?_map, hrow]
    rfl
  rw [hval, heq]
  simp [pyDiv_zero_of_pos hpos]

/-- C5 witness: the amended theorem applied at the concrete input of the
spec's own example (frame rate 25, distance 2). -/
theorem C5_equal_frames_no_guard_witness :
    ([⟨2, 7, 7⟩] : List PassingRow)[0]? = some ⟨2, 7, 7⟩ ∧ (0:ℚ) < 25 * 2 ∧
    (compute_passing_speed [⟨2, 7, 7⟩] 25 2)[0]? = some (2, PyF.inf) :=
  ⟨rfl, by norm_num,
   C5_equal_frames_no_guard [⟨2, 7, 7⟩] 25 2 0 ⟨2, 7, 7⟩ rfl rfl (by norm_num)⟩

/-- C9 counterexample: `_compute_individual_speed` does not leave the
caller's movement table unchanged — after the call the caller's table has
gained the derived columns, so it differs from the table that was passed
in. -/
theorem C9_movement_table_mutated_counterexample :
    (_compute_individual_speed ⟨[⟨1, 0, 0, 0, 3, 4, 1⟩], []⟩ 1 none true).2 ≠
      ⟨[⟨1, 0, 0, 0, 3, 4, 1⟩], []⟩ := by
  intro h
  have hlen := congrArg (fun t => t.extra.length) h
  simp [_compute_individual_speed] at hlen

/-- C9 (amended): `compute_mean_velocity_per_frame`,
`compute_voronoi_velocity` and `compute_passing_speed` leave their
caller-supplied tables unchanged, but `_compute_individual_speed` mutates
the caller's movement table in place: its rows survive, yet the columns
`d_x`, `d_y`, `speed` (and `v_x`, `v_y` when components are requested) are
appended to the caller's object. -/
theorem C9_mutation_characterization :
    ∀ (t : MovementTable) (fr : ℚ) (dir : Option (ℚ × ℚ)) (xy : Bool),
      ((_compute_individual_speed t fr dir xy).2.rows = t.rows ∧
        (_compute_individual_speed t fr dir xy).2.extra.map Prod.fst =
          t.extra.map Prod.fst ++ (["d_x", "d_y", "speed"] ++
            if xy then ["v_x", "v_y"] else [])) ∧
      (∀ (traj : List TrajRow) (vel : List VelRow) (ma : MeasurementArea),
        compute_mean_velocity_per_frame_post traj vel ma = (traj, vel, ma)) ∧
      (∀ (traj : List TrajRow) (vel : List VelRow) (vor : List VoronoiRow)
          (ma : MeasurementArea),
        compute_voronoi_velocity_post traj vel vor ma = (traj, vel, vor, ma)) ∧
      (∀ rows : List PassingRow, compute_passing_speed_post rows = rows) := by
  intro t fr dir xy
  refine ⟨⟨rfl, ?_⟩, fun _ _ _ => rfl, fun _ _ _ _ => rfl, fun _ => rfl⟩
  cases xy <;> simp [_compute_individual_speed]

/-- C3 counterexample: a pedestrian standing exactly on the boundary point
`(0,0)` of the unit-square measurement area (a member under the
boundary-inclusive test) is NOT counted by `compute_mean_velocity_per_frame`
— the frame average is `0`, not the pedestrian's speed `5`, which the
boundary-inclusive reading would produce. -/
theorem C3_boundary_point_excluded_counterexample :
    within_inclusive (0, 0) [(0, 0), (1, 0), (1, 1), (0, 1)] = true ∧
    compute_mean_velocity_per_frame [⟨1, 0, 0, 0⟩] [⟨1, 0, 5⟩]
        ⟨[(0, 0), (1, 0), (1, 1), (0, 1)], 1⟩ = [(0, 0)] ∧
    compute_mean_velocity_per_frame_spec [⟨1, 0, 0, 0⟩] [⟨1, 0, 5⟩]
        ⟨[(0, 0), (1, 0), (1, 1), (0, 1)], 1⟩ = [(0, 5)] := by
  refine ⟨?_, ?_, ?_⟩ <;>
    norm_num [within_inclusive, shapelyWithin, polyEdges, cross2, List.rotate,
      compute_mean_velocity_per_frame, compute_mean_velocity_per_frame_spec,
      inAreaRows, inAreaRows_spec, mergeTrajVel, meanAtFrame,
      minFrame, maxFrame, framesRange, listMin?, listMax?,
      List.range_succ, List.filter]

/-- C3 (amended): the membership used by `compute_mean_velocity_per_frame`
is the strict interior (`shapely.within` excludes the polygon boundary), so
a pedestrian exactly on the boundary is not counted; whenever no merged
position lies exactly on the boundary — i.e. the strict and the inclusive
test agree on every merged row — the code agrees with the spec's
boundary-inclusive pipeline. -/
theorem C3_membership_strict_interior :
    ∀ (traj : List TrajRow) (vel : List VelRow) (ma : MeasurementArea),
      (∀ c ∈ mergeTrajVel traj vel,
        shapelyWithin (c.1.x, c.1.y) ma.vertices =
          within_inclusive (c.1.x, c.1.y) ma.vertices) →
      compute_mean_velocity_per_frame traj vel ma =
        compute_mean_velocity_per_frame_spec traj vel ma := by
  intro traj vel ma H
  have hrows : inAreaRows traj vel ma = inAreaRows_spec traj vel ma := by
    rw [inAreaRows, inAreaRows_spec]
    exact List.filter_congr (fun c hc => H c hc)
  rw [compute_mean_velocity_per_frame, compute_mean_velocity_per_frame_spec, hrows]

/-- C3 witness: the amended theorem applied to a pedestrian strictly inside
the unit square. -/
theorem C3_membership_strict_interior_witness :
    (∀ c ∈ mergeTrajVel [⟨1, 0, 1/2, 1/2⟩] [⟨1, 0, 5⟩],
      shapelyWithin (c.1.x, c.1.y) [(0, 0), (1, 0), (1, 1), (0, 1)] =
        within_inclusive (c.1.x, c.1.y) [(0, 0), (1, 0), (1, 1), (0, 1)]) ∧
    compute_mean_velocity_per_frame [⟨1, 0, 1/2, 1/2⟩] [⟨1, 0, 5⟩]
        ⟨[(0, 0), (1, 0), (1, 1), (0, 1)], 1⟩ =
      compute_mean_velocity_per_frame_spec [⟨1, 0, 1/2, 1/2⟩] [⟨1, 0, 5⟩]
        ⟨[(0, 0), (1, 0), (1, 1), (0, 1)], 1⟩ := by
  have hH : ∀ c ∈ mergeTrajVel [⟨1, 0, 1/2, 1/2⟩] [⟨1, 0, 5⟩],
      shapelyWithin (c.1.x, c.1.y) [(0, 0), (1, 0), (1, 1), (0, 1)] =
        within_inclusive (c.1.x, c.1.y) [(0, 0), (1, 0), (1, 1), (0, 1)] := by
    intro c hc
    norm_num [mergeTrajVel, List.filter] at hc
    subst hc
    norm_num [shapelyWithin, within_inclusive, polyEdges, cross2, List.rotate]
  exact ⟨hH, C3_membership_strict_interior _ _ _ hH⟩

/-- Auxiliary: projecting the key back out of a key-value pairing map. -/
theorem map_fst_map_pair (l : List Int) (g : Int → ℚ) :
    (l.map (fun f => (f, g f))).map Prod.fst = l := by
  induction l with
  | nil => rfl
  | cons a t ih => simp [ih]

/-- C6: for a non-empty trajectory table the series returned by
`compute_mean_velocity_per_frame` and by `compute_voronoi_velocity` are
indexed exactly by the dense range `[minFrame, maxFrame]` (length
`max - min + 1`, no gaps), and every frame with no qualifying row carries
the value `0`. -/
theorem C6_dense_frame_range :
    ∀ (traj : List TrajRow) (vel : List VelRow) (vor : List VoronoiRow)
      (ma : MeasurementArea),
      traj ≠ [] →
      (compute_mean_velocity_per_frame traj vel ma).map Prod.fst =
          framesRange (minFrame traj) (maxFrame traj) ∧
      (compute_voronoi_velocity traj vel vor ma).map Prod.fst =
          framesRange (minFrame traj) (maxFrame traj) ∧
      ((framesRange (minFrame traj) (maxFrame traj)).length : Int) =
          maxFrame traj - minFrame traj + 1 ∧
      (∀ f : Int, f ∈ framesRange (minFrame traj) (maxFrame traj) ↔
          minFrame traj ≤ f ∧ f ≤ maxFrame traj) ∧
      (∀ (f : Int) (v : ℚ), (f, v) ∈ compute_mean_velocity_per_frame traj vel ma →
          ((inAreaRows traj vel ma).filter (fun c => decide (c.1.frame = f))).isEmpty = true →
          v = 0) ∧
      (∀ (f : Int) (v : ℚ), (f, v) ∈ compute_voronoi_velocity traj vel vor ma →
          ((voronoiWeights vor vel ma.area).filter (fun c => decide (c.1 = f))).isEmpty = true →
          v = 0) := by
  intro traj vel vor ma h
  have hmM : minFrame traj ≤ maxFrame traj := minFrame_le_maxFrame h
  refine ⟨?_, ?_, ?_, ?_, ?_, ?_⟩
  · rw [compute_mean_velocity_per_frame, map_fst_map_pair]
  · rw [compute_voronoi_velocity, map_fst_map_pair]
  · have hl : (framesRange (minFrame traj) (maxFrame traj)).length =
        (maxFrame traj - minFrame traj + 1).toNat := by
      unfold framesRange
      simp
    rw [hl]
    omega
  · intro f
    unfold framesRange
    rw [List.mem_map]
    constructor
    · rintro ⟨k, hk, rfl⟩
      rw [List.mem_range] at hk
      omega
    · rintro ⟨h1, h2⟩
      refine ⟨(f - minFrame traj).toNat, ?_, ?_⟩
      · rw [List.mem_range]
        omega
      · omega
  · intro f v hmem hempty
    rw [compute_mean_velocity_per_frame] at hmem
    obtain ⟨f0, _, heq⟩ := List.mem_map.mp hmem
    obtain ⟨hf, hv⟩ := Prod.mk.injEq .. ▸ heq
    subst hf
    rw [← hv, meanAtFrame]
    simp [hempty]
  · intro f v hmem hempty
    rw [compute_voronoi_velocity] at hmem
    obtain ⟨f0, _, heq⟩ := List.mem_map.mp hmem
    obtain ⟨hf, hv⟩ := Prod.mk.injEq .. ▸ heq
    subst hf
    rw [← hv, voronoiSumAtFrame]
    rw [List.isEmpty_iff] at hempty
    simp [hempty]

/-- Auxiliary: scaling every intersection area and the measurement-area area
by the same non-zero factor leaves the weighted rows unchanged — each weight
is the ratio `interArea * speed / area`. -/
theorem voronoiWeights_scale (vor : List VoronoiRow) (vel : List VelRow) (area k : ℚ)
    (hk : k ≠ 0) :
    voronoiWeights (vor.map (fun w => ⟨w.id, w.frame, k * w.interArea⟩)) vel (k * area) =
      voronoiWeights vor vel area := by
  induction vor with
  | nil => rfl
  | cons w t ih =>
    simp only [voronoiWeights, List.map_cons, List.flatMap_cons] at ih ⊢
    rw [ih]
    congr 1
    apply List.map_congr_left
    intro v _
    show (w.frame, k * w.interArea * v.speed / (k * area)) =
      (w.frame, w.interArea * v.speed / area)
    rw [mul_assoc, mul_div_mul_left (w.interArea * v.speed) area hk]

/-- C8: `compute_voronoi_velocity` is invariant under multiplying the
measurement-area area and every Voronoi-intersection area by the same
positive factor `k` — each frame's value depends only on the area ratios. -/
theorem C8_voronoi_scale_invariance :
    ∀ (traj : List TrajRow) (vel : List VelRow) (vor : List VoronoiRow)
      (ma : MeasurementArea) (k : ℚ), 0 < k →
      compute_voronoi_velocity traj vel
        (vor.map (fun w => ⟨w.id, w.frame, k * w.interArea⟩))
        ⟨ma.vertices, k * ma.area⟩ =
      compute_voronoi_velocity traj vel vor ma := by
  intro traj vel vor ma k hk
  rw [compute_voronoi_velocity, compute_voronoi_velocity]
  have hW : voronoiWeights (vor.map (fun w => ⟨w.id, w.frame, k * w.interArea⟩)) vel
      (MeasurementArea.mk ma.vertices (k * ma.area)).area = voronoiWeights vor vel ma.area :=
    voronoiWeights_scale vor vel ma.area k (ne_of_gt hk)
  rw [hW]

/-- C8 witness: the scale-invariance theorem applied at a concrete input
with `k = 2`. -/
theorem C8_voronoi_scale_invariance_witness :
    (0:ℚ) < 2 ∧
    compute_voronoi_velocity [⟨1, 0, 0, 0⟩] [⟨1, 0, 3⟩]
        (([⟨1, 0, 1⟩] : List VoronoiRow).map (fun w => ⟨w.id, w.frame, 2 * w.interArea⟩))
        ⟨[], 2 * 2⟩ =
      compute_voronoi_velocity [⟨1, 0, 0, 0⟩] [⟨1, 0, 3⟩] [⟨1, 0, 1⟩] ⟨[], 2⟩ :=
  ⟨by norm_num,
   C8_voronoi_scale_invariance [⟨1, 0, 0, 0⟩] [⟨1, 0, 3⟩] [⟨1, 0, 1⟩] ⟨[], 2⟩ 2 (by norm_num)⟩

/-- C6 witness: the density theorem applied to a concrete two-row
trajectory covering frames 0..2. -/
theorem C6_dense_frame_range_witness :
    ([⟨1, 0, 0, 0⟩, ⟨1, 2, 1, 1⟩] : List TrajRow) ≠ [] ∧
    ((compute_mean_velocity_per_frame [⟨1, 0, 0, 0⟩, ⟨1, 2, 1, 1⟩] [] ⟨[], 1⟩).map Prod.fst =
        framesRange (minFrame [⟨1, 0, 0, 0⟩, ⟨1, 2, 1, 1⟩])
          (maxFrame [⟨1, 0, 0, 0⟩, ⟨1, 2, 1, 1⟩]) ∧
      (compute_voronoi_velocity [⟨1, 0, 0, 0⟩, ⟨1, 2, 1, 1⟩] [] [] ⟨[], 1⟩).map Prod.fst =
        framesRange (minFrame [⟨1, 0, 0, 0⟩, ⟨1, 2, 1, 1⟩])
          (maxFrame [⟨1, 0, 0, 0⟩, ⟨1, 2, 1, 1⟩]) ∧
      ((framesRange (minFrame [⟨1, 0, 0, 0⟩, ⟨1, 2, 1, 1⟩])
          (maxFrame [⟨1, 0, 0, 0⟩, ⟨1, 2, 1, 1⟩])).length : Int) =
        maxFrame [⟨1, 0, 0, 0⟩, ⟨1, 2, 1, 1⟩] - minFrame [⟨1, 0, 0, 0⟩, ⟨1, 2, 1, 1⟩] + 1 ∧
      (∀ f : Int, f ∈ framesRange (minFrame [⟨1, 0, 0, 0⟩, ⟨1, 2, 1, 1⟩])
            (maxFrame [⟨1, 0, 0, 0⟩, ⟨1, 2, 1, 1⟩]) ↔
          minFrame [⟨1, 0, 0, 0⟩, ⟨1, 2, 1, 1⟩] ≤ f ∧
            f ≤ maxFrame [⟨1, 0, 0, 0⟩, ⟨1, 2, 1, 1⟩]) ∧
      (∀ (f : Int) (v : ℚ),
          (f, v) ∈ compute_mean_velocity_per_frame [⟨1, 0, 0, 0⟩, ⟨1, 2, 1, 1⟩] [] ⟨[], 1⟩ →
          ((inAreaRows [⟨1, 0, 0, 0⟩, ⟨1, 2, 1, 1⟩] [] ⟨[], 1⟩).filter
            (fun c => decide (c.1.frame = f))).isEmpty = true →
          v = 0) ∧
      (∀ (f : Int) (v : ℚ),
          (f, v) ∈ compute_voronoi_velocity [⟨1, 0, 0, 0⟩, ⟨1, 2, 1, 1⟩] [] [] ⟨[], 1⟩ →
          ((voronoiWeights [] [] (MeasurementArea.mk [] 1).area).filter
            (fun c => decide (c.1 = f))).isEmpty = true →
          v = 0)) :=
  ⟨by simp,
   C6_dense_frame_range [⟨1, 0, 0, 0⟩, ⟨1, 2, 1, 1⟩] [] [] ⟨[], 1⟩ (by simp)⟩

/-- C7 counterexample: a pedestrian observed at frames 5..9, queried at
reference frame 6 with window 4.  The claim's lower bound is the earliest
observed frame `≥ 6 - 2 = 4`, i.e. frame 5, so it selects frames 5..8; the
code instead collapses the lower bound to the reference frame 6 (because the
earliest observed frame 5 is not `≤ 4`) and returns only frames 6..8,
dropping the available frame 5. -/
theorem C7_window_collapse_counterexample :
    get_pedestrian_positions
        [⟨1, 5, 5, 0⟩, ⟨1, 6, 6, 0⟩, ⟨1, 7, 7, 0⟩, ⟨1, 8, 8, 0⟩, ⟨1, 9, 9, 0⟩] 6 1 4 =
      [(6, 0), (7, 0), (8, 0)] ∧
    get_pedestrian_positions_claim
        [⟨1, 5, 5, 0⟩, ⟨1, 6, 6, 0⟩, ⟨1, 7, 7, 0⟩, ⟨1, 8, 8, 0⟩, ⟨1, 9, 9, 0⟩] 6 1 4 =
      [(5, 0), (6, 0), (7, 0), (8, 0)] := by
  constructor <;> decide

/-- C7 (amended): in the interior case — when the pedestrian's earliest
observed frame is `≤ frame - window/2` and its latest observed frame is
`≥ frame + window/2` (all comparisons scaled by 2 to stay in `ℤ`) — the
selection equals the claim's interval; at a trajectory boundary the affected
bound instead collapses to the reference frame itself, not to the earliest
or latest available frame (see the counterexample). -/
theorem C7_interior_window_matches_claim :
    ∀ (data : List TrajRow) (frame pid window m M : Int),
      listMin? (pedFrames data pid) = some m →
      listMax? (pedFrames data pid) = some M →
      0 ≤ window →
      2 * m ≤ 2 * frame - window →
      2 * frame + window ≤ 2 * M →
      get_pedestrian_positions data frame pid window =
        get_pedestrian_positions_claim data frame pid window := by
  intro data f pid w m M hm hM hw h1 h2
  rw [get_pedestrian_positions, get_pedestrian_positions_claim]
  suffices hsel : pedWindowRows data f pid w = pedWindowRowsClaim data f pid w by rw [hsel]
  rw [pedWindowRows, pedWindowRowsClaim]
  congr 1
  -- the code's bounds in the interior case
  have hlb : windowLB2 data f pid w = 2 * f - w := by
    rw [windowLB2, hm]
    exact if_pos h1
  have hub : windowUB2 data f pid w = 2 * f + w := by
    rw [windowUB2, hM]
    exact if_pos h2
  -- the claim's candidate sets are non-empty in the interior case
  have hMmem : M ∈ pedFrames data pid := listMax?_mem hM
  have hmmem : m ∈ pedFrames data pid := listMin?_mem hm
  have hMcand : M ∈ (pedFrames data pid).filter (fun fr => decide (2 * f - w ≤ 2 * fr)) :=
    List.mem_filter.mpr ⟨hMmem, by simp; omega⟩
  have hmcand : m ∈ (pedFrames data pid).filter (fun fr => decide (2 * fr ≤ 2 * f + w)) :=
    List.mem_filter.mpr ⟨hmmem, by simp; omega⟩
  obtain ⟨lb, hlbEq⟩ : ∃ lb,
      listMin? ((pedFrames data pid).filter (fun fr => decide (2 * f - w ≤ 2 * fr))) =
        some lb := by
    cases hx : listMin? ((pedFrames data pid).filter (fun fr => decide (2 * f - w ≤ 2 * fr))) with
    | none =>
      rw [listMin?_eq_none.mp hx] at hMcand
      cases hMcand
    | some lb => exact ⟨lb, rfl⟩
  obtain ⟨ub, hubEq⟩ : ∃ ub,
      listMax? ((pedFrames data pid).filter (fun fr => decide (2 * fr ≤ 2 * f + w))) =
        some ub := by
    cases hx : listMax? ((pedFrames data pid).filter (fun fr => decide (2 * fr ≤ 2 * f + w))) with
    | none =>
      rw [listMax?_eq_none.mp hx] at hmcand
      cases hmcand
    | some ub => exact ⟨ub, rfl⟩
  have hlbmem := List.mem_filter.mp (listMin?_mem hlbEq)
  have hubmem := List.mem_filter.mp (listMax?_mem hubEq)
  have hlb_ge : 2 * f - w ≤ 2 * lb := by
    have := hlbmem.2
    simpa using this
  have hub_le : 2 * ub ≤ 2 * f + w := by
    have := hubmem.2
    simpa using this
  have hclb : claimLB2 data f pid w = 2 * lb := by rw [claimLB2, hlbEq]
  have hcub : claimUB2 data f pid w = 2 * ub := by rw [claimUB2, hubEq]
  apply List.filter_congr
  intro r hr
  have hfr : r.frame ∈ pedFrames data pid := by
    rw [pedFrames]
    exact List.mem_map_of_mem _ hr
  rw [hlb, hub, hclb, hcub, ← Bool.decide_and, ← Bool.decide_and, decide_eq_decide]
  constructor
  · rintro ⟨ha, hb⟩
    constructor
    · have hrc : r.frame ∈ (pedFrames data pid).filter
          (fun fr => decide (2 * f - w ≤ 2 * fr)) :=
        List.mem_filter.mpr ⟨hfr, by simpa using ha⟩
      have := listMin?_le hlbEq hrc
      omega
    · have hrc : r.frame ∈ (pedFrames data pid).filter
          (fun fr => decide (2 * fr ≤ 2 * f + w)) :=
        List.mem_filter.mpr ⟨hfr, by simpa using hb⟩
      have := listMax?_ge hubEq hrc
      omega
  · rintro ⟨ha, hb⟩
    exact ⟨by omega, by omega⟩

/-- C7 witness: the interior-case theorem applied to a pedestrian observed
at frames 0..4, queried at frame 2 with window 2. -/
theorem C7_interior_window_matches_claim_witness :
    listMin? (pedFrames [⟨1, 0, 0, 0⟩, ⟨1, 1, 1, 0⟩, ⟨1, 2, 2, 0⟩, ⟨1, 3, 3, 0⟩,
        ⟨1, 4, 4, 0⟩] 1) = some 0 ∧
    listMax? (pedFrames [⟨1, 0, 0, 0⟩, ⟨1, 1, 1, 0⟩, ⟨1, 2, 2, 0⟩, ⟨1, 3, 3, 0⟩,
        ⟨1, 4, 4, 0⟩] 1) = some 4 ∧
    (0:Int) ≤ 2 ∧ 2 * 0 ≤ 2 * 2 - 2 ∧ 2 * 2 + 2 ≤ 2 * (4:Int) ∧
    get_pedestrian_positions [⟨1, 0, 0, 0⟩, ⟨1, 1, 1, 0⟩, ⟨1, 2, 2, 0⟩, ⟨1, 3, 3, 0⟩,
        ⟨1, 4, 4, 0⟩] 2 1 2 =
      get_pedestrian_positions_claim [⟨1, 0, 0, 0⟩, ⟨1, 1, 1, 0⟩, ⟨1, 2, 2, 0⟩,
        ⟨1, 3, 3, 0⟩, ⟨1, 4, 4, 0⟩] 2 1 2 :=
  ⟨by decide, by decide, by decide, by decide, by decide,
   C7_interior_window_matches_claim
     [⟨1, 0, 0, 0⟩, ⟨1, 1, 1, 0⟩, ⟨1, 2, 2, 0⟩, ⟨1, 3, 3, 0⟩, ⟨1, 4, 4, 0⟩] 2 1 2 0 4
     (by decide) (by decide) (by decide) (by decide) (by decide)⟩

/-- C10: `get_pedestrian_positions` returns the positions of the selected
rows sorted in ascending frame order — the selection is re-sorted by frame
before being turned into points, so the first element belongs to the
earliest selected frame and the last to the latest. -/
theorem C10_positions_sorted_by_frame :
    ∀ (data : List TrajRow) (frame pid window : Int),
      List.Sorted frameLE (pedWindowRows data frame pid window) ∧
      get_pedestrian_positions data frame pid window =
        (pedWindowRows data frame pid window).map (fun r => (r.x, r.y)) := by
  intro data f pid w
  refine ⟨?_, rfl⟩
  rw [pedWindowRows, sortByFrame]
  exact List.sorted_insertionSort frameLE _
